import Mathlib

/-!
Verification of `src/utilisation.c` (DynamicDevices/utilisation_example).

Shallow embedding conventions:
* C `char` buffers (NUL-terminated strings) are `List Nat` holding the bytes
  strictly before the terminating NUL (so the list never contains `0`);
  a possibly-NULL `char *` is `Option (List Nat)`.
* C `double` values are modelled as `ℚ`; note that in `ℚ` the division
  `x / 0` yields `0`, whereas IEEE `0.0 / 0.0` yields NaN — theorems about
  the division-by-zero path state the divisor explicitly.
* The global `INPUT_DATA` struct is a structure with the same field names;
  the backing array `fInVibration[MAX_INPUT_VALUES]` is a `List ℚ`, read
  through `List.getD · 0` (the whole struct is `memset` to zero before use,
  so out-of-range reads of the C array within its 255 slots yield `0.0`).
* Loops are embedded as fuel-indexed structural recursions; the fuel passed
  at each call site provably dominates the number of iterations, so the
  embedded function computes the loop's actual result.
-/

namespace Utilisation

/-- `#define MAX_STRING 64` (src/utilisation.c:79): size in bytes of the
token buffers `sTmp`, `sTmp2`, `sInFileName`, `sOutFileName`. -/
def MAX_STRING : Nat := 64

/-- `#define MAX_INPUT_VALUES 255` (src/utilisation.c:80): length of the
`fInVibration` array, i.e. the sample-store capacity. -/
def MAX_INPUT_VALUES : Nat := 255

/-- `#define DFLT_TRIGGER_LEVEL 10.0` (src/utilisation.c:89). -/
def DFLT_TRIGGER_LEVEL : ℚ := 10

/-- `struct STR_INPUT_DATA` (src/utilisation.c:101-104): a count plus the
fixed backing array of readings. -/
structure INPUT_DATA where
  iCount : Nat
  fInVibration : List ℚ
deriving DecidableEq

/-! ## strrev (src/utilisation.c:121-134) -/

/-- One iteration body of the `strrev` loop (src/utilisation.c:129-131):
`*p1 ^= *p2; *p2 ^= *p1; *p1 ^= *p2;` with `p1` at index `i` and `p2` at
index `j`.  Each read happens after the preceding write, exactly as in the
C statement sequence (so aliasing `i = j` would zero the byte, as the raw
XOR trick does). -/
def xorSwapBody (l : List Nat) (i j : Nat) : List Nat :=
  let l1 := l.set i (l.getD i 0 ^^^ l.getD j 0)
  let l2 := l1.set j (l1.getD j 0 ^^^ l1.getD i 0)
  l2.set i (l2.getD i 0 ^^^ l2.getD j 0)

/-- The `for (p1 = str, p2 = str + strlen(str) - 1; p2 > p1; ++p1, --p2)`
loop of `strrev` (src/utilisation.c:127-132), fuel-indexed.  Indices `i`
(`p1`) and `j` (`p2`) move inward by one per iteration; any
`fuel ≥ (j - i + 1) / 2` reproduces the loop exactly. -/
def xorSwapLoop : Nat → List Nat → Nat → Nat → List Nat
  | 0, l, _, _ => l
  | fuel + 1, l, i, j => if j > i then xorSwapLoop fuel (xorSwapBody l i j) (i + 1) (j - 1) else l

/-- `strrev` on a non-NULL string buffer (src/utilisation.c:121-134): return
immediately on the empty string (`! *str`), otherwise run the XOR-swap loop
from index `0` and index `strlen(str) - 1`.  `l.length` iterations of fuel
strictly dominate the `⌊length / 2⌋` iterations the loop performs. -/
def strrevList (l : List Nat) : List Nat :=
  if l = [] then l else xorSwapLoop l.length l 0 (l.length - 1)

/-- `strrev` including the NULL-pointer guard (`if (! str || ! *str) return
str;`, src/utilisation.c:125-126): `none` models a NULL `char *`. -/
def strrev : Option (List Nat) → Option (List Nat)
  | none => none
  | some l => some (strrevList l)

/-- The reimplementation the spec describes for comparison (claim about
refinement): the same two-index inward walk, but swapping through a
temporary variable instead of XOR arithmetic.  One iteration body. -/
def tempSwapBody (l : List Nat) (i j : Nat) : List Nat :=
  let tmp := l.getD i 0
  (l.set i (l.getD j 0)).set j tmp

/-- The naive-swap counterpart of `xorSwapLoop`. -/
def tempSwapLoop : Nat → List Nat → Nat → Nat → List Nat
  | 0, l, _, _ => l
  | fuel + 1, l, i, j => if j > i then tempSwapLoop fuel (tempSwapBody l i j) (i + 1) (j - 1) else l

/-- Naive reversal by mirrored temp-variable swaps, the comparison point for
the XOR implementation. -/
def naiveReverse (l : List Nat) : List Nat :=
  if l = [] then l else tempSwapLoop l.length l 0 (l.length - 1)

/-! ## dCalculatePercentageUsage (src/utilisation.c:140-152) -/

/-- The `for (i = 0; i < pInputData->iCount; i++) if (fInVibration[i] >=
dTriggerLevel) iTriggered++;` loop (src/utilisation.c:145-148): number of
readings at indices `[0, n)` at or above the trigger level. -/
def iTriggeredLoop (f : List ℚ) (t : ℚ) : Nat → Nat
  | 0 => 0
  | n + 1 => iTriggeredLoop f t n + (if f.getD n 0 ≥ t then 1 else 0)

/-- `dCalculatePercentageUsage` (src/utilisation.c:140-152).  Returns the
pair (returned double, state of the `INPUT_DATA` struct after the call):
the C function computes `100.0 * ((double)iTriggered / pInputData->iCount++)`
— the post-increment divides by the old count but leaves the struct's
count incremented by one.  The return type carries no error case, exactly
as the C function returns a plain `double`. -/
def dCalculatePercentageUsage (pInputData : INPUT_DATA) (dTriggerLevel : ℚ) :
    ℚ × INPUT_DATA :=
  let iTriggered := iTriggeredLoop pInputData.fInVibration dTriggerLevel pInputData.iCount
  let dPercentageUsage := 100 * ((iTriggered : ℚ) / (pInputData.iCount : ℚ))
  (dPercentageUsage, ⟨pInputData.iCount + 1, pInputData.fInVibration⟩)

/-! ## The ingestion loop of main (src/utilisation.c:201-204) -/

/-- Whether `c` is an ASCII decimal digit byte. -/
def isDigitByte (c : Nat) : Bool := 48 ≤ c && c ≤ 57

/-- Value of a digit string read left to right. -/
def digitsVal (ds : List Nat) : Nat := ds.foldl (fun acc c => acc * 10 + (c - 48)) 0

/-- Models the libc `sscanf(s, "%lf", ...)` conversion (strtod) on the plain
decimal inputs this program's spec considers: an optional sign, integer
digits, an optional decimal point with fraction digits; the longest valid
leading substring is converted and trailing bytes are ignored; the
conversion fails (`none`, sscanf returns 0) when no digit is found.
Exponent, hex, inf and nan forms do not occur in the inputs at issue. -/
def parseDouble (l : List Nat) : Option ℚ :=
  let sgn : ℚ × List Nat :=
    match l with
    | 45 :: rest => (-1, rest)
    | 43 :: rest => (1, rest)
    | _ => (1, l)
  let ip := sgn.2.takeWhile isDigitByte
  let r2 := sgn.2.dropWhile isDigitByte
  match r2 with
  | 46 :: r3 =>
    let fp := r3.takeWhile isDigitByte
    if ip.isEmpty && fp.isEmpty then none
    else some (sgn.1 * ((digitsVal ip : ℚ) + (digitsVal fp : ℚ) / (10 ^ fp.length : ℚ)))
  | _ => if ip.isEmpty then none else some (sgn.1 * (digitsVal ip : ℚ))

/-- The store write `_InputData.fInVibration[_InputData.iCount++] = v`
performed by a successful conversion in the read loop
(src/utilisation.c:203): no capacity check of any kind — the count always
grows, and the write lands at index `iCount` whether or not that index is
inside the 255-element array.  (`List.set` ignores an out-of-range index;
the C code instead writes out of bounds there, which `writeInBounds` below
makes explicit.) -/
def readLoopStep (d : INPUT_DATA) (v : ℚ) : INPUT_DATA :=
  ⟨d.iCount + 1, d.fInVibration.set d.iCount v⟩

/-- The store write of `readLoopStep` stays inside `fInVibration`'s bounds
iff the current count is below `MAX_INPUT_VALUES`. -/
def writeInBounds (d : INPUT_DATA) : Prop := d.iCount < MAX_INPUT_VALUES

/-- One iteration of the `REVERSED_FLOAT_IMPLEMENTATION` read loop
(src/utilisation.c:202-204) on the token just scanned into `sTmp`:
`sscanf(strrev(sTmp), "%lf", &_InputData.fInVibration[_InputData.iCount++]);`
The `sscanf` return value is discarded, and `iCount++` is evaluated
unconditionally, so the count grows even when the conversion fails (the
slot then keeps its previous — zeroed — value). -/
def decodeStep (d : INPUT_DATA) (token : List Nat) : INPUT_DATA :=
  match parseDouble (strrevList token) with
  | some v => readLoopStep d v
  | none => ⟨d.iCount + 1, d.fInVibration⟩

/-- Byte of a token scanned by `fscanf(pInFile, "%s", sTmp)`: printable
ASCII, not whitespace, not NUL. -/
def isTokenChar (c : Nat) : Bool :=
  c < 128 && !(c == 32 || c == 9 || c == 10 || c == 11 || c == 12 || c == 13) && c != 0

/-- An ASCII token without embedded whitespace (what `%s` delivers). -/
def isToken (t : List Nat) : Bool := t.all isTokenChar

/-! ## File-open phase of main (src/utilisation.c:175-186, 229-233) -/

/-- Exit code of `main` as a function of which fopen calls succeed, from the
code's control flow: `return -1` when the input file fails to open
(src/utilisation.c:176-179); then, after opening the output file, the code
tests `if (!pInFile)` again — not `pOutFile` — before its output-file error
return (src/utilisation.c:182), so that branch is unreachable and the run
continues to the final `return 0` (src/utilisation.c:233) regardless of
`outOpens`. -/
def mainExitCode (inOpens outOpens : Bool) : Int :=
  if !inOpens then -1
  else if !inOpens then -1
  else 0

/-! ## Helper lemmas about list reads through `getD` -/

theorem getD_set_self {α : Type} {l : List α} {i : Nat} (a d : α) (h : i < l.length) :
    (l.set i a).getD i d = a := by
  rw [List.getD_eq_getElem _ _ (by simpa using h)]
  exact List.getElem_set_self (by simpa using h)

theorem getD_set_ne {α : Type} {l : List α} {i j : Nat} (a d : α) (h : i ≠ j) :
    (l.set i a).getD j d = l.getD j d := by
  rcases Nat.lt_or_ge j l.length with hj | hj
  · rw [List.getD_eq_getElem _ _ (by simpa using hj), List.getD_eq_getElem _ _ hj]
    exact List.getElem_set_ne h (by simpa using hj)
  · rw [List.getD_eq_default _ _ (by simpa using hj), List.getD_eq_default _ _ hj]

/-! ## The XOR swap body performs a genuine swap on distinct in-bounds indices -/

theorem xor_swap_snd (a b : Nat) : b ^^^ (a ^^^ b) = a := by
  rw [Nat.xor_comm a b, ← Nat.xor_assoc, Nat.xor_self, Nat.zero_xor]

theorem xor_swap_fst (a b : Nat) : a ^^^ b ^^^ a = b := by
  rw [Nat.xor_comm a b, Nat.xor_assoc, Nat.xor_self, Nat.xor_zero]

theorem xorSwapBody_eq_swap {l : List Nat} {i j : Nat} (hne : i ≠ j)
    (hi : i < l.length) (hj : j < l.length) :
    xorSwapBody l i j = (l.set i (l.getD j 0)).set j (l.getD i 0) := by
  have h1j : (l.set i (l.getD i 0 ^^^ l.getD j 0)).getD j 0 = l.getD j 0 :=
    getD_set_ne _ _ hne
  have h1i : (l.set i (l.getD i 0 ^^^ l.getD j 0)).getD i 0 = l.getD i 0 ^^^ l.getD j 0 :=
    getD_set_self _ _ hi
  show (let l1 := l.set i (l.getD i 0 ^^^ l.getD j 0);
        let l2 := l1.set j (l1.getD j 0 ^^^ l1.getD i 0);
        l2.set i (l2.getD i 0 ^^^ l2.getD j 0)) = _
  simp only [h1j, h1i, xor_swap_snd]
  have h2i : ((l.set i (l.getD i 0 ^^^ l.getD j 0)).set j (l.getD i 0)).getD i 0 =
      l.getD i 0 ^^^ l.getD j 0 := by
    rw [getD_set_ne _ _ (Ne.symm hne)]; exact getD_set_self _ _ hi
  have h2j : ((l.set i (l.getD i 0 ^^^ l.getD j 0)).set j (l.getD i 0)).getD j 0 =
      l.getD i 0 := getD_set_self _ _ (by simpa using hj)
  simp only [h2i, h2j, xor_swap_fst]
  rw [List.set_comm _ _ _ (Ne.symm hne), List.set_set]

theorem tempSwapBody_eq_swap (l : List Nat) (i j : Nat) :
    tempSwapBody l i j = (l.set i (l.getD j 0)).set j (l.getD i 0) := rfl

/-! ## Characterization of the swap loops -/

theorem xorSwapLoop_zero (l : List Nat) (i j : Nat) : xorSwapLoop 0 l i j = l := rfl

theorem xorSwapLoop_succ (n : Nat) (l : List Nat) (i j : Nat) :
    xorSwapLoop (n + 1) l i j =
      if j > i then xorSwapLoop n (xorSwapBody l i j) (i + 1) (j - 1) else l := rfl

theorem tempSwapLoop_zero (l : List Nat) (i j : Nat) : tempSwapLoop 0 l i j = l := rfl

theorem tempSwapLoop_succ (n : Nat) (l : List Nat) (i j : Nat) :
    tempSwapLoop (n + 1) l i j =
      if j > i then tempSwapLoop n (tempSwapBody l i j) (i + 1) (j - 1) else l := rfl

theorem xorSwapBody_length (l : List Nat) (i j : Nat) :
    (xorSwapBody l i j).length = l.length := by
  show ((((l.set i _).set j _)).set i _).length = l.length
  simp

theorem tempSwapBody_length (l : List Nat) (i j : Nat) :
    (tempSwapBody l i j).length = l.length := by
  rw [tempSwapBody_eq_swap]
  simp

theorem xorSwapLoop_length :
    ∀ (fuel : Nat) (l : List Nat) (i j : Nat), (xorSwapLoop fuel l i j).length = l.length := by
  intro fuel
  induction fuel with
  | zero => intro l i j; rw [xorSwapLoop_zero]
  | succ n ih =>
    intro l i j
    rw [xorSwapLoop_succ]
    split
    · rw [ih, xorSwapBody_length]
    · rfl

/-- Elementwise description of the XOR-swap loop: with enough fuel it
reverses the segment `[i, j]` of the buffer and leaves everything else
unchanged. -/
theorem xorSwapLoop_getD :
    ∀ (fuel : Nat) (l : List Nat) (i j : Nat), j < l.length → j - i ≤ 2 * fuel →
      ∀ k, (xorSwapLoop fuel l i j).getD k 0 =
        if i ≤ k ∧ k ≤ j then l.getD (i + j - k) 0 else l.getD k 0 := by
  intro fuel
  induction fuel with
  | zero =>
    intro l i j _ hfuel k
    rw [xorSwapLoop_zero]
    split
    · next h =>
      have hik : i + j - k = k := by omega
      rw [hik]
    · rfl
  | succ n ih =>
    intro l i j hj hfuel k
    rw [xorSwapLoop_succ]
    by_cases hij : j > i
    · rw [if_pos hij]
      have hne : i ≠ j := by omega
      have hi : i < l.length := by omega
      have hbody : xorSwapBody l i j = (l.set i (l.getD j 0)).set j (l.getD i 0) :=
        xorSwapBody_eq_swap hne hi hj
      have hlen : (xorSwapBody l i j).length = l.length := xorSwapBody_length l i j
      have hrec := ih (xorSwapBody l i j) (i + 1) (j - 1) (by omega) (by omega) k
      rw [hrec]
      have hread : ∀ m, (xorSwapBody l i j).getD m 0 =
          if m = j then l.getD i 0 else if m = i then l.getD j 0 else l.getD m 0 := by
        intro m
        rw [hbody]
        by_cases hmj : m = j
        · subst hmj
          rw [if_pos rfl]
          exact getD_set_self _ _ (by simpa using hj)
        · rw [if_neg hmj, getD_set_ne _ _ (fun h => hmj h.symm)]
          by_cases hmi : m = i
          · subst hmi
            rw [if_pos rfl]
            exact getD_set_self _ _ hi
          · rw [if_neg hmi, getD_set_ne _ _ (fun h => hmi h.symm)]
      by_cases hin : i + 1 ≤ k ∧ k ≤ j - 1
      · rw [if_pos hin, hread]
        rw [if_neg (by omega : ¬(i + 1 + (j - 1) - k = j)),
          if_neg (by omega : ¬(i + 1 + (j - 1) - k = i))]
        have him : i + 1 + (j - 1) - k = i + j - k := by omega
        rw [him, if_pos (by omega)]
      · rw [if_neg hin, hread]
        by_cases hki : k = i
        · subst hki
          rw [if_neg (by omega), if_pos rfl, if_pos (by omega)]
          have hkk : k + j - k = j := by omega
          rw [hkk]
        · by_cases hkj : k = j
          · subst hkj
            rw [if_pos rfl, if_pos (by omega)]
            have hkk : i + k - k = i := by omega
            rw [hkk]
          · rw [if_neg hkj, if_neg hki, if_neg (by omega)]
    · rw [if_neg hij]
      split
      · next h =>
        have hik : i + j - k = k := by omega
        rw [hik]
      · rfl

/-- `strrev` computes exactly the character-wise reversal of its buffer. -/
theorem strrevList_eq_reverse (l : List Nat) : strrevList l = l.reverse := by
  by_cases hl : l = []
  · subst hl; rfl
  · have hpos : 0 < l.length := List.length_pos.mpr hl
    show (if l = [] then l else xorSwapLoop l.length l 0 (l.length - 1)) = l.reverse
    rw [if_neg hl]
    apply List.ext_getElem
    · rw [xorSwapLoop_length, List.length_reverse]
    · intro k h1 h2
      have hk : k < l.length := by
        have := xorSwapLoop_length l.length l 0 (l.length - 1)
        omega
      have hgd := xorSwapLoop_getD l.length l 0 (l.length - 1) (by omega) (by omega) k
      rw [if_pos (by omega : 0 ≤ k ∧ k ≤ l.length - 1)] at hgd
      have hl1 : 0 + (l.length - 1) - k = l.length - 1 - k := by omega
      rw [hl1] at hgd
      rw [List.getD_eq_getElem _ _ h1, List.getD_eq_getElem _ _ (by omega : l.length - 1 - k < l.length)] at hgd
      rw [hgd, List.getElem_reverse]

/-- The XOR-swap loop and the temp-variable swap loop coincide whenever the
right index starts within the buffer. -/
theorem xorSwapLoop_eq_tempSwapLoop :
    ∀ (fuel : Nat) (l : List Nat) (i j : Nat), j < l.length →
      xorSwapLoop fuel l i j = tempSwapLoop fuel l i j := by
  intro fuel
  induction fuel with
  | zero => intro l i j _; rfl
  | succ n ih =>
    intro l i j hj
    rw [xorSwapLoop_succ, tempSwapLoop_succ]
    by_cases hij : j > i
    · rw [if_pos hij, if_pos hij]
      have hne : i ≠ j := by omega
      have hi : i < l.length := by omega
      rw [xorSwapBody_eq_swap hne hi hj, ← tempSwapBody_eq_swap]
      exact ih _ _ _ (by rw [tempSwapBody_length]; omega)
    · rw [if_neg hij, if_neg hij]

/-- The naive temp-variable reversal also computes `List.reverse`. -/
theorem naiveReverse_eq_reverse (l : List Nat) : naiveReverse l = l.reverse := by
  by_cases hl : l = []
  · subst hl; rfl
  · have hpos : 0 < l.length := List.length_pos.mpr hl
    have h := strrevList_eq_reverse l
    unfold strrevList at h
    rw [if_neg hl] at h
    show (if l = [] then l else tempSwapLoop l.length l 0 (l.length - 1)) = l.reverse
    rw [if_neg hl, ← xorSwapLoop_eq_tempSwapLoop _ _ _ _ (by omega)]
    exact h

/-! ## Characterization of the trigger-counting loop -/

theorem iTriggeredLoop_succ (f : List ℚ) (t : ℚ) (n : Nat) :
    iTriggeredLoop f t (n + 1) = iTriggeredLoop f t n + (if f.getD n 0 ≥ t then 1 else 0) := rfl

theorem iTriggeredLoop_eq_filter (f : List ℚ) (t : ℚ) :
    ∀ n, iTriggeredLoop f t n =
      ((List.range n).filter (fun i => decide (t ≤ f.getD i 0))).length := by
  intro n
  induction n with
  | zero => rfl
  | succ m ih =>
    rw [List.range_succ, List.filter_append, List.length_append, iTriggeredLoop_succ, ih]
    by_cases h : t ≤ f.getD m 0
    · rw [if_pos h]
      have hd : decide (t ≤ f.getD m 0) = true := decide_eq_true h
      rw [List.filter_singleton, hd, cond_true, List.length_singleton]
    · rw [if_neg h]
      have hd : decide (t ≤ f.getD m 0) = false := decide_eq_false h
      rw [List.filter_singleton, hd, cond_false, List.length_nil]

/-! ## Claim theorems -/

/-- C1: the claim says `dCalculatePercentageUsage` is read-only on the
sample store and therefore idempotent.  The code violates it: the
post-increment in `100.0*(((double)iTriggered)/pInputData->iCount++)`
(src/utilisation.c:149) bumps the stored count, so a second call on the
"same" store divides by 3 instead of 2 and returns a different value. -/
theorem c1_calculate_mutates_count :
    (dCalculatePercentageUsage ⟨2, [10, 0]⟩ 10).2 ≠ (⟨2, [10, 0]⟩ : INPUT_DATA) ∧
    (dCalculatePercentageUsage ⟨2, [10, 0]⟩ 10).2.iCount = 3 ∧
    (dCalculatePercentageUsage ⟨2, [10, 0]⟩ 10).1 = 50 ∧
    (dCalculatePercentageUsage (dCalculatePercentageUsage ⟨2, [10, 0]⟩ 10).2 10).1 ≠
      (dCalculatePercentageUsage ⟨2, [10, 0]⟩ 10).1 := by
  refine ⟨?_, rfl, ?_, ?_⟩
  · norm_num [dCalculatePercentageUsage]
  · norm_num [dCalculatePercentageUsage, iTriggeredLoop, List.getD]
  · norm_num [dCalculatePercentageUsage, iTriggeredLoop, List.getD]

/-- C2: the claim says an empty store yields an explicit `EmptyInputError`.
The code has no error channel at all — the return type is a bare `double` —
and on `iCount = 0` it evaluates `100.0 * (0 / 0)` (NaN in IEEE; `0` under
the `ℚ` convention `x / 0 = 0` used by this embedding) and still increments
the count to 1. -/
theorem c2_empty_store_unguarded_division :
    (⟨0, List.replicate MAX_INPUT_VALUES 0⟩ : INPUT_DATA).iCount = 0 ∧
    (dCalculatePercentageUsage ⟨0, List.replicate MAX_INPUT_VALUES 0⟩ 10).1 =
      100 * ((0 : ℚ) / (0 : ℚ)) ∧
    (dCalculatePercentageUsage ⟨0, List.replicate MAX_INPUT_VALUES 0⟩ 10).2.iCount = 1 := by
  refine ⟨rfl, ?_, rfl⟩
  norm_num [dCalculatePercentageUsage, iTriggeredLoop]

/-- C3: the claim says appending at `count = capacity` fails with
`CapacityExceeded`, stores nothing and leaves the count unchanged.  The
read loop has no check: on a full store the write targets index 255 of the
255-element array (out of bounds) and the count still grows to 256. -/
theorem c3_append_at_capacity_unchecked :
    (⟨MAX_INPUT_VALUES, List.replicate MAX_INPUT_VALUES 0⟩ : INPUT_DATA).iCount =
      MAX_INPUT_VALUES ∧
    ¬ writeInBounds ⟨MAX_INPUT_VALUES, List.replicate MAX_INPUT_VALUES 0⟩ ∧
    (readLoopStep ⟨MAX_INPUT_VALUES, List.replicate MAX_INPUT_VALUES 0⟩ 1).iCount =
      MAX_INPUT_VALUES + 1 := by
  refine ⟨rfl, ?_, rfl⟩
  norm_num [writeInBounds, MAX_INPUT_VALUES]

/-- C4: the claim says a token whose reversal is an invalid literal (such
as `"-5.2"`, reversed `"2.5-"`) raises `DecodeError` and appends nothing.
The code ignores the `sscanf` return value: `"2.5-"` converts on its valid
leading part `"2.5"`, so the value `2.5` is stored at index 0 and the count
becomes 1. -/
theorem c4_reversed_negative_token_silently_parsed :
    strrevList [45, 53, 46, 50] = [50, 46, 53, 45] ∧
    parseDouble [50, 46, 53, 45] = some (5 / 2) ∧
    decodeStep ⟨0, List.replicate MAX_INPUT_VALUES 0⟩ [45, 53, 46, 50] =
      ⟨1, (List.replicate MAX_INPUT_VALUES (0 : ℚ)).set 0 (5 / 2)⟩ ∧
    (decodeStep ⟨0, List.replicate MAX_INPUT_VALUES 0⟩ [45, 53, 46, 50]).fInVibration.getD 0 0 =
      5 / 2 := by
  have h1 : strrevList [45, 53, 46, 50] = [50, 46, 53, 45] := by decide
  have h2 : parseDouble [50, 46, 53, 45] = some (5 / 2) := by
    norm_num [parseDouble, isDigitByte, digitsVal, List.takeWhile, List.dropWhile]
  have h3 : decodeStep ⟨0, List.replicate MAX_INPUT_VALUES 0⟩ [45, 53, 46, 50] =
      ⟨1, (List.replicate MAX_INPUT_VALUES (0 : ℚ)).set 0 (5 / 2)⟩ := by
    unfold decodeStep
    rw [h1, h2]
    rfl
  refine ⟨h1, h2, h3, ?_⟩
  rw [h3]
  exact getD_set_self _ _ (by norm_num [MAX_INPUT_VALUES])

/-- C5: the claim says the process exits non-zero whenever either file
fails to open.  The input-file case does return -1, but the output-file
check at src/utilisation.c:182 tests `pInFile` instead of `pOutFile`, so an
output-open failure falls through and the run ends at `return 0`. -/
theorem c5_output_open_failure_exits_zero :
    mainExitCode false false = -1 ∧ mainExitCode false true = -1 ∧
    mainExitCode true true = 0 ∧ mainExitCode true false = 0 := by
  refine ⟨rfl, rfl, rfl, rfl⟩

/-- C6: for a store with positive count, the returned value is
`100 * (number of indices in [0, count) whose reading is ≥ threshold) /
count` — the comparison is inclusive, and the division uses the original
count (the post-increment hands the old value to the division); with
samples `[10.0, 9.9, 10.0]` and threshold `10.0` the result is `200/3` =
66.666...%. -/
theorem c6_calculator_counts_and_divides :
    (∀ (d : INPUT_DATA) (t : ℚ), 0 < d.iCount →
      (dCalculatePercentageUsage d t).1 =
        100 * (((List.range d.iCount).filter
            (fun i => decide (t ≤ d.fInVibration.getD i 0))).length : ℚ) / (d.iCount : ℚ)) ∧
    (dCalculatePercentageUsage ⟨3, [10, 99 / 10, 10]⟩ 10).1 = 200 / 3 := by
  constructor
  · intro d t _
    show 100 * ((iTriggeredLoop d.fInVibration t d.iCount : ℚ) / (d.iCount : ℚ)) = _
    rw [iTriggeredLoop_eq_filter, mul_div_assoc]
  · norm_num [dCalculatePercentageUsage, iTriggeredLoop, List.getD]

/-- Witness for C6 at samples `[10.0, 9.9, 10.0]`, threshold `10.0`. -/
theorem c6_calculator_counts_and_divides_witness :
    0 < (⟨3, [10, 99 / 10, 10]⟩ : INPUT_DATA).iCount ∧
    (dCalculatePercentageUsage ⟨3, [10, 99 / 10, 10]⟩ 10).1 =
      100 * (((List.range (⟨3, [10, 99 / 10, 10]⟩ : INPUT_DATA).iCount).filter
          (fun i => decide ((10 : ℚ) ≤
            (⟨3, [10, 99 / 10, 10]⟩ : INPUT_DATA).fInVibration.getD i 0))).length : ℚ) /
        ((⟨3, [10, 99 / 10, 10]⟩ : INPUT_DATA).iCount : ℚ) :=
  ⟨by norm_num, c6_calculator_counts_and_divides.1 ⟨3, [10, 99 / 10, 10]⟩ 10 (by norm_num)⟩

/-- C7: reversing an ASCII whitespace-free token twice with `strrev`
returns the original token. -/
theorem c7_reverse_roundTrip (t : List Nat) (h : isToken t = true) :
    strrevList (strrevList t) = t := by
  rw [strrevList_eq_reverse, strrevList_eq_reverse, List.reverse_reverse]

/-- Witness for C7 on the token `"52.0"`. -/
theorem c7_reverse_roundTrip_witness :
    isToken [53, 50, 46, 48] = true ∧
    strrevList (strrevList [53, 50, 46, 48]) = [53, 50, 46, 48] :=
  ⟨by decide, c7_reverse_roundTrip [53, 50, 46, 48] (by decide)⟩

/-- C8: the claim says tokens longer than 63 characters are rejected as a
fatal input-format error and the 64-byte buffer is never overrun.  The code
scans with an unbounded `"%s"` into `sTmp[MAX_STRING]`: a 64-character
token needs 65 bytes (overflowing the buffer, undefined behaviour in C) yet
the loop still reverses, parses and appends it — nothing is rejected. -/
theorem c8_overlong_token_ingested_not_rejected :
    MAX_STRING < (List.replicate 64 49 : List Nat).length + 1 ∧
    (decodeStep ⟨0, List.replicate MAX_INPUT_VALUES 0⟩ (List.replicate 64 49)).iCount = 1 := by
  constructor
  · decide
  · decide

/-- C9: `strrev` returns a NULL argument and the empty string unchanged
without entering the swap loop, and leaves a one-character string intact:
the loop guard `p2 > p1` is strict, so the XOR swap never runs with the two
pointers aliased and cannot zero the middle character. -/
theorem c9_strrev_null_empty_singleton :
    strrev none = none ∧ strrev (some []) = some [] ∧
    ∀ c : Nat, c ≠ 0 → strrevList [c] = [c] :=
  ⟨rfl, rfl, fun _ _ => rfl⟩

/-- Witness for C9 on the one-character string `"a"`. -/
theorem c9_strrev_null_empty_singleton_witness :
    (97 : Nat) ≠ 0 ∧ strrevList [97] = [97] :=
  ⟨by decide, c9_strrev_null_empty_singleton.2.2 97 (by decide)⟩

/-- C10: on every non-empty buffer the XOR-swap reversal agrees with the
naive temp-variable mirrored swap, both computing the character-wise
reverse, and the middle character of an odd-length buffer is untouched. -/
theorem c10_xor_reverse_refines_naive (l : List Nat) (h : l ≠ []) :
    strrevList l = naiveReverse l ∧ strrevList l = l.reverse ∧
    ∀ m : Nat, l.length = 2 * m + 1 → (strrevList l).getD m 0 = l.getD m 0 := by
  refine ⟨?_, strrevList_eq_reverse l, ?_⟩
  · rw [strrevList_eq_reverse, naiveReverse_eq_reverse]
  · intro m hm
    have hmlt : m < l.length := by omega
    have h1 : m < l.reverse.length := by rw [List.length_reverse]; omega
    have h2 : l.reverse.getD m 0 = l.getD (l.length - 1 - m) 0 := by
      rw [List.getD_eq_getElem _ _ h1, List.getD_eq_getElem _ _ (by omega), List.getElem_reverse]
    have hidx : l.length - 1 - m = m := by omega
    rw [strrevList_eq_reverse, h2, hidx]

/-- Witness for C10 on the buffer `"abc"` (odd length, middle index 1). -/
theorem c10_xor_reverse_refines_naive_witness :
    ([97, 98, 99] : List Nat) ≠ [] ∧
    strrevList [97, 98, 99] = naiveReverse [97, 98, 99] ∧
    strrevList [97, 98, 99] = ([97, 98, 99] : List Nat).reverse ∧
    (strrevList [97, 98, 99]).getD 1 0 = ([97, 98, 99] : List Nat).getD 1 0 := by
  have h := c10_xor_reverse_refines_naive [97, 98, 99] (by decide)
  exact ⟨by decide, h.1, h.2.1, h.2.2 1 (by decide)⟩

end Utilisation
